import Mathlib

/-!
Verification of the `rl_gear` repository's specification against its code.

The Python sources are shallowly embedded:
* `rl_gear/torch_models.py`: convolution-arithmetic helper `out_shape`, the
  DQN encoder shape schedule `dqn_cnn`, the fully-connected actor-critic
  `FCNet`, and the shared `TorchForwardModel` value-caching protocol.
* `rl_gear/rllib_utils.py`: the configuration pipeline
  `make_basic_rllib_config` and the `RllibLogMetaData` logger's
  `on_result` callback.

Machine reals (numpy float64 / torch float32) are modelled as exact
integer arithmetic: all concrete sizes involved are far below 2^53,
where numpy's float64 division-plus-floor agrees with `Int.fdiv`, and
the learned-weight values are abstracted to exactly representable ones.
External side effects (filesystem writes, warnings) are modelled as
explicitly returned actions/flags.
-/

namespace RlGear

/-! ## torch_models.out_shape (lines 37-57)

A numpy value that is either a 0-d scalar or a 1-d vector, as produced by
`np.asarray` on the `IntOrSeq` arguments of `out_shape`. -/

inductive NpArr where
  | scalar : Int → NpArr
  | vec : List Int → NpArr
deriving DecidableEq, Repr

/-- Elementwise binary numpy operation with 1-d broadcasting: a scalar
broadcasts against a vector, equal-length vectors combine pointwise, a
length-one vector broadcasts against any vector; any other shape pair is a
numpy broadcast error (`none`). -/
def bop (f : Int → Int → Int) : NpArr → NpArr → Option NpArr
  | .scalar a, .scalar b => some (.scalar (f a b))
  | .scalar a, .vec bs => some (.vec (bs.map (fun y => f a y)))
  | .vec as, .scalar b => some (.vec (as.map (fun x => f x b)))
  | .vec as, .vec bs =>
    if as.length = bs.length then some (.vec (List.zipWith f as bs))
    else
      match as, bs with
      | [a], bs => some (.vec (bs.map (fun y => f a y)))
      | as, [b] => some (.vec (as.map (fun x => f x b)))
      | _, _ => none

/-- Elementwise unary numpy operation (shape preserving). -/
def npMap (f : Int → Int) : NpArr → NpArr
  | .scalar a => .scalar (f a)
  | .vec as => .vec (as.map f)

/-- `np.squeeze` on a 0-d or 1-d value: a length-one vector becomes a
scalar, everything else is unchanged. -/
def squeezeArr : NpArr → NpArr
  | .vec [x] => .scalar x
  | a => a

/-- Embedding of `out_shape` (torch_models.py lines 37-57).

The source computes `o = np.floor((i + 2 * p - k) / s) + 1` and casts to
`int32`; float64 division followed by `np.floor` is `Int.fdiv` exactly for
the integer magnitudes of interest, and the `int32` cast is the identity
there.  A scalar input is promoted to a one-element vector
(`i[np.newaxis]`) and the result is squeezed back. -/
def out_shape (inp_shape kernel stride padding : NpArr) : Option NpArr := do
  let scalar_input := match inp_shape with | .scalar _ => true | .vec _ => false
  let i := match inp_shape with | .scalar x => NpArr.vec [x] | v => v
  let t1 ← bop (fun a b => a + b) i (npMap (fun p => 2 * p) padding)
  let t2 ← bop (fun a b => a - b) t1 kernel
  let t3 ← bop Int.fdiv t2 stride
  let o := npMap (fun x => x + 1) t3
  pure (if scalar_input then squeezeArr o else o)

/-- The closed-form convolution arithmetic named by the specification:
`floor((input + 2*padding - kernel) / stride) + 1`. -/
def convFormula (i k s p : Int) : Int := (i + 2 * p - k).fdiv s + 1

/-- The element of a scalar-or-vector value seen at index `j` under numpy
broadcasting (a scalar is seen at every index). -/
def elemAt (a : NpArr) (j : Nat) : Int :=
  match a with
  | .scalar x => x
  | .vec xs => xs.getD j 0

/-- `a` broadcasts elementwise against a vector of length `n` without
changing its length: `a` is a scalar or a vector of exactly length `n`. -/
def conformsTo (n : Nat) (a : NpArr) : Prop :=
  match a with
  | .scalar _ => True
  | .vec xs => xs.length = n

/-- Every stride entry is positive (the validity condition under which
float division plus floor is `Int.fdiv`). -/
def allPos : NpArr → Prop
  | .scalar x => 0 < x
  | .vec xs => ∀ x ∈ xs, 0 < x

/-! ## torch_models.dqn_cnn (lines 60-74) -/

/-- Kernel schedule of the DQN encoder (torch_models.py line 62). -/
def dqnKernels : List Int := [8, 4, 4]

/-- Stride schedule of the DQN encoder (torch_models.py line 63). -/
def dqnStrides : List Int := [4, 2, 2]

/-- Channel schedule of the DQN encoder (torch_models.py line 61):
`[obs_shape[-1], 32, 64, 64]`. -/
def dqnChannels (obs_shape : List Int) : List Int :=
  [obs_shape.getLastD 0, 32, 64, 64]

/-- One convolution stage of `dqn_cnn`: the spatial shape is pushed
through `out_shape(out_shp, k, s)` with the default padding 0
(torch_models.py line 69).  On the vector shapes this is always a vector;
the catch-all branch is unreachable there. -/
def dqnStep (shp : List Int) (ks : Int × Int) : List Int :=
  match out_shape (.vec shp) (.scalar ks.1) (.scalar ks.2) (.scalar 0) with
  | some (.vec o) => o
  | _ => []

/-- All successive spatial shapes of the DQN encoder, starting from
`obs_shape[:-1]` and applying the three kernel/stride stages in order. -/
def dqnSpatialTrace (obs_shape : List Int) : List (List Int) :=
  List.scanl dqnStep obs_shape.dropLast (dqnKernels.zip dqnStrides)

/-- Embedding of the shape result of `dqn_cnn` (torch_models.py line 74):
the final spatial shape with the last channel count appended,
`out_shp.tolist() + [channels[-1]]`. -/
def dqn_cnn_out_shp (obs_shape : List Int) : List Int :=
  (List.foldl dqnStep obs_shape.dropLast (dqnKernels.zip dqnStrides))
    ++ [(dqnChannels obs_shape).getLastD 0]

/-- `int(np.prod(shape))`: the flattened feature count fed to the hidden
projection `nn.Linear(int(np.prod(out_shp)), 512)` (torch_models.py
line 164). -/
def flatCount (l : List Int) : Int := l.foldl (fun a b => a * b) 1

/-! ## torch_models.FCNet (lines 102-151)

Tensors are batches of feature vectors with exactly represented entries
(torch float32 arithmetic modelled exactly).  An `nn.Linear` module is its
weight matrix (rows) and bias vector; weights are construction parameters
because the source draws them from the Xavier initializer. -/

/-- An `nn.Linear` module: `weight` has one row per output feature. -/
structure Linear where
  weight : List (List Int)
  bias : List Int
deriving DecidableEq, Repr

/-- Dot product of a weight row with a feature vector. -/
def dot (a b : List Int) : Int :=
  (a.zip b).foldl (fun acc p => acc + p.1 * p.2) 0

/-- Apply an `nn.Linear` module to one feature vector. -/
def Linear.apply (l : Linear) (x : List Int) : List Int :=
  (l.weight.zip l.bias).map (fun rb => dot rb.1 x + rb.2)

/-- A layer of an `nn.Sequential` stack in `FCNet`: `nn.Linear` or
`nn.ReLU`. -/
inductive FCLayer where
  | lin : Linear → FCLayer
  | act : FCLayer
deriving DecidableEq, Repr

/-- Apply one layer to a feature vector (`nn.ReLU` is elementwise
`max 0`). -/
def FCLayer.apply : FCLayer → List Int → List Int
  | .lin l, x => l.apply x
  | .act, x => x.map (fun v => max 0 v)

/-- `nn.Sequential`: apply the layers in order. -/
def runSeq (layers : List FCLayer) (x : List Int) : List Int :=
  layers.foldl (fun v layer => layer.apply v) x

/-- Apply a per-sample function across a batch (torch modules act rowwise
on a `(B, n)` tensor). -/
def batchApply (f : List Int → List Int) (xs : List (List Int)) : List (List Int) :=
  xs.map f

/-- `.squeeze(1)` on a `(B, 1)` tensor: keep the single entry of each
row. -/
def squeezeCol (xs : List (List Int)) : List Int :=
  xs.map (fun r => r.getD 0 0)

/-- The attribute state of an `FCNet` instance.  `__init__` (lines
105-130) sets the four module attributes; the cache attributes
(`pi_emb`, `v_emb`, `_cur_value`, `_last_output`) are first assigned in
`forward`.  `FCNet.__init__` never assigns `_cur_value`, so before a
forward call the cache is absent; absent is modelled as `none` (reading it
fails either way, see `FCNet.value_function`). -/
structure FCNet where
  pi_network : List FCLayer
  v_network : List FCLayer
  pi_layer : Linear
  v_layer : Linear
  pi_emb : Option (List (List Int))
  v_emb : Option (List (List Int))
  _cur_value : Option (List Int)
  _last_output : Option (List (List Int))
deriving DecidableEq

/-- The `make_layers` closure of `FCNet.__init__` (lines 112-119): one
`nn.Linear` followed by one `nn.ReLU` per consecutive size pair; the
`Linear` modules (with their freshly initialized weights) are the
construction parameters. -/
def make_layers (lins : List Linear) : List FCLayer :=
  lins.foldr (fun l acc => FCLayer.lin l :: FCLayer.act :: acc) []

/-- `FCNet.__init__` (lines 105-130): build the two independent stacks
and the two heads; no cache attribute is assigned. -/
def mkFCNet (pi_lins v_lins : List Linear) (pi_head v_head : Linear) : FCNet :=
  { pi_network := make_layers pi_lins
    v_network := make_layers v_lins
    pi_layer := pi_head
    v_layer := v_head
    pi_emb := none
    v_emb := none
    _cur_value := none
    _last_output := none }

/-- Embedding of `FCNet.forward` (lines 133-146) exactly as written: line
141 computes `self.v_emb = self.pi_network(input_dict['obs'])`, i.e. the
value embedding also comes from the policy stack.  Returns the updated
attribute state and the logits (the `state` list is returned unchanged by
the source and is omitted). -/
def FCNet.forward (net : FCNet) (obs : List (List Int)) :
    FCNet × List (List Int) :=
  let pi_emb := batchApply (runSeq net.pi_network) obs
  let v_emb := batchApply (runSeq net.pi_network) obs
  let logits := batchApply net.pi_layer.apply pi_emb
  let cur_value := squeezeCol (batchApply net.v_layer.apply v_emb)
  ({ net with
      pi_emb := some pi_emb
      v_emb := some v_emb
      _cur_value := some cur_value
      _last_output := some logits }, logits)

/-- The forward pass the specification describes for the fully-connected
model: identical to `FCNet.forward` except that the value embedding is
computed by the value stack (`self.v_network`), per the spec sentence
"the cached value estimate is produced by passing the observation through
the value stack and its head". -/
def FCNet.forwardSpec (net : FCNet) (obs : List (List Int)) :
    FCNet × List (List Int) :=
  let pi_emb := batchApply (runSeq net.pi_network) obs
  let v_emb := batchApply (runSeq net.v_network) obs
  let logits := batchApply net.pi_layer.apply pi_emb
  let cur_value := squeezeCol (batchApply net.v_layer.apply v_emb)
  ({ net with
      pi_emb := some pi_emb
      v_emb := some v_emb
      _cur_value := some cur_value
      _last_output := some logits }, logits)

/-- `FCNet.value_function` (lines 148-151): `assert self._cur_value is
not None` then return the cache.  An unset cache fails (as an attribute
error in the source, since `FCNet.__init__` never assigns `_cur_value`);
a `None` cache fails the assertion; both are `none` here. -/
def FCNet.value_function (net : FCNet) : Except String (List Int) :=
  match net._cur_value with
  | some v => .ok v
  | none => .error "must call forward() first"

/-- A concrete `FCNet` instance: one hidden width, policy-stack weight 1,
value-stack weight 2, identity heads.  The two stacks compute different
functions, which separates the source's `forward` from the
specification's. -/
def fcnetExample : FCNet :=
  mkFCNet [⟨[[1]], [0]⟩] [⟨[[2]], [0]⟩] ⟨[[1]], [0]⟩ ⟨[[1]], [0]⟩

/-! ## torch_models.TorchForwardModel / TorchDQNModel / TorchImpalaModel
(lines 78-98, 155-219)

The convolutional stacks are learned torch modules; each is embedded as
the function it denotes on an abstract tensor type `T`.  The handful of
raw tensor operations the two `forward` bodies use are collected in
`TensorOps`. -/

/-- The tensor operations used by the convolutional `forward` bodies:
`add` (residual sum `x + res_block(x)`), `permuteDiv`
(`.float().permute(0, 3, 1, 2) / 255.0`), `reshapeFlat`
(`.reshape(x.size(0), -1)`) and `squeezeCol1` (`.squeeze(1)`). -/
structure TensorOps (T : Type) where
  add : T → T → T
  permuteDiv : T → T
  reshapeFlat : T → T
  squeezeCol1 : T → T

/-- Attribute state installed by `TorchForwardModel.__init__` (line 82:
`self._cur_value = None`) and `_make_linear_head` (lines 84-87). -/
structure TorchForwardModel (T : Type) where
  pi_layer : T → T
  v_layer : T → T
  _cur_value : Option T
  _last_output : Option T

/-- `TorchForwardModel.__init__` followed by `_make_linear_head`: the
value cache starts as `None`. -/
def TorchForwardModel.mk0 (pi v : T → T) : TorchForwardModel T :=
  { pi_layer := pi, v_layer := v, _cur_value := none, _last_output := none }

/-- `TorchForwardModel._forward_helper` (lines 89-93): compute the
logits, cache `self.v_layer(x).squeeze(1)` as the current value, record
the last output, return the logits. -/
def forwardHelper (ops : TensorOps T) (m : TorchForwardModel T) (x : T) :
    TorchForwardModel T × T :=
  let logits := m.pi_layer x
  let value := ops.squeezeCol1 (m.v_layer x)
  ({ m with _cur_value := some value, _last_output := some logits }, logits)

/-- `TorchForwardModel.value_function` (lines 95-98): `assert
self._cur_value is not None, "must call forward() first"`. -/
def TorchForwardModel.value_function (m : TorchForwardModel T) :
    Except String T :=
  match m._cur_value with
  | some v => .ok v
  | none => .error "must call forward() first"

/-- Attribute state of `TorchDQNModel` (lines 155-166): the base-class
state plus the `cnn` and `fc` stacks. -/
structure TorchDQNModel (T : Type) extends TorchForwardModel T where
  cnn : T → T
  fc : T → T

/-- `TorchDQNModel.__init__`: `super().__init__` leaves the value cache
`None`, then the stacks and heads are built. -/
def TorchDQNModel.mk0 (cnn fc pi v : T → T) : TorchDQNModel T :=
  { TorchForwardModel.mk0 pi v with cnn := cnn, fc := fc }

/-- `TorchDQNModel.forward` (lines 170-178): normalize, run the conv
stack, flatten, run the fully-connected stack, then `_forward_helper`. -/
def TorchDQNModel.forward (ops : TensorOps T) (m : TorchDQNModel T) (obs : T) :
    TorchDQNModel T × T :=
  let x := ops.permuteDiv obs
  let x := m.cnn x
  let x := m.fc (ops.reshapeFlat x)
  let res := forwardHelper ops m.toTorchForwardModel x
  ({ m with toTorchForwardModel := res.1 }, res.2)

/-- `value_function` is inherited from `TorchForwardModel`. -/
def TorchDQNModel.value_function (m : TorchDQNModel T) : Except String T :=
  m.toTorchForwardModel.value_function

/-- Attribute state of `TorchImpalaModel` (lines 181-219): the base-class
state, the conv stages with their residual-block groups, the
fully-connected stack, and the embedding caches set by `forward`. -/
structure TorchImpalaModel (T : Type) extends TorchForwardModel T where
  convs : List (T → T)
  res_blocks : List (List (T → T))
  fc : T → T
  cnn_emb : Option T
  cnn_emb_vec : Option T
  fc_emb : Option T

/-- `TorchImpalaModel.__init__`: `super().__init__` leaves the value
cache `None`, then the stacks and heads are built. -/
def TorchImpalaModel.mk0 (convs : List (T → T)) (res_blocks : List (List (T → T)))
    (fc pi v : T → T) : TorchImpalaModel T :=
  { TorchForwardModel.mk0 pi v with
      convs := convs
      res_blocks := res_blocks
      fc := fc
      cnn_emb := none
      cnn_emb_vec := none
      fc_emb := none }

/-- `TorchImpalaModel.forward` (lines 204-219): normalize, run each conv
stage followed by its residual blocks (`x = x + res_block(x)`), cache the
embeddings, run the fully-connected stack, then `_forward_helper`. -/
def TorchImpalaModel.forward (ops : TensorOps T) (m : TorchImpalaModel T)
    (obs : T) : TorchImpalaModel T × T :=
  let x := ops.permuteDiv obs
  let x := (m.convs.zip m.res_blocks).foldl
    (fun x cr =>
      let x := cr.1 x
      cr.2.foldl (fun x rb => ops.add x (rb x)) x) x
  let cnn_emb := x
  let cnn_emb_vec := ops.reshapeFlat cnn_emb
  let fc_emb := m.fc cnn_emb_vec
  let res := forwardHelper ops m.toTorchForwardModel fc_emb
  ({ m with
      toTorchForwardModel := res.1
      cnn_emb := some cnn_emb
      cnn_emb_vec := some cnn_emb_vec
      fc_emb := some fc_emb }, res.2)

/-- `value_function` is inherited from `TorchForwardModel`. -/
def TorchImpalaModel.value_function (m : TorchImpalaModel T) : Except String T :=
  m.toTorchForwardModel.value_function

/-- The value estimate a call of `FCNet.forward net obs` caches. -/
def fcValueOf (net : FCNet) (obs : List (List Int)) : List Int :=
  squeezeCol (batchApply net.v_layer.apply
    (batchApply (runSeq net.pi_network) obs))

/-- The value estimate a call of `TorchDQNModel.forward ops m obs`
caches. -/
def dqnValueOf (ops : TensorOps T) (m : TorchDQNModel T) (obs : T) : T :=
  ops.squeezeCol1 (m.v_layer (m.fc (ops.reshapeFlat (m.cnn (ops.permuteDiv obs)))))

/-- The value estimate a call of `TorchImpalaModel.forward ops m obs`
caches. -/
def impalaValueOf (ops : TensorOps T) (m : TorchImpalaModel T) (obs : T) : T :=
  ops.squeezeCol1 (m.v_layer (m.fc (ops.reshapeFlat
    ((m.convs.zip m.res_blocks).foldl
      (fun x cr =>
        let x := cr.1 x
        cr.2.foldl (fun x rb => ops.add x (rb x)) x)
      (ops.permuteDiv obs)))))

/-! ## rllib_utils.make_basic_rllib_config (lines 73-121)

Configuration values are YAML/JSON-like: nested string-keyed mappings with
integer and string leaves.  `vcallback` stands for the
`InfoToCustomMetricsCallback` class object assigned on line 115 and `vext`
for the other opaque leaf objects the pipeline stores but never inspects
(the `local_dir` string, the logger tuple). -/

inductive CVal where
  | vint : Int → CVal
  | vstr : String → CVal
  | vcallback : CVal
  | vext : Nat → CVal
  | dict : List (String × CVal) → CVal

/-- First value stored under key `k` (python string `==` lookup). -/
def lookupKey (k : String) : List (String × CVal) → Option CVal
  | [] => none
  | kv :: rest => if kv.1 = k then some kv.2 else lookupKey k rest

mutual
/-- Modelled from the spec: `ray.tune.utils.merge_dicts`, the
"last-writer-wins deep merge" of section 3 (the merge itself is ray
library code, absent from this repository).  When both sides hold
mappings they are merged recursively, otherwise the override value
wins. -/
def mergeVal : CVal → CVal → CVal
  | .dict a, .dict b => .dict (mergeLeft a b ++ newKeys a b)
  | _, b => b

/-- The entries of the base mapping, each deep-merged with the override
entry of the same key when one exists (python `dict` update keeps the
base ordering for existing keys). -/
def mergeLeft : List (String × CVal) → List (String × CVal) → List (String × CVal)
  | [], _ => []
  | (k, av) :: rest, b =>
    (match lookupKey k b with
     | some bv => (k, mergeVal av bv)
     | none => (k, av)) :: mergeLeft rest b

/-- The override entries whose keys are new; python appends them after
the base entries, in override order. -/
def newKeys : List (String × CVal) → List (String × CVal) → List (String × CVal)
  | _, [] => []
  | a, kv :: rest =>
    if (lookupKey kv.1 a).isSome then newKeys a rest
    else kv :: newKeys a rest
end

mutual
/-- A well-formed configuration value: every mapping in it binds each key
at most once (python dictionaries cannot hold duplicate keys). -/
def wfVal : CVal → Bool
  | .vint _ => true
  | .vstr _ => true
  | .vcallback => true
  | .vext _ => true
  | .dict d => wfDict d

/-- Well-formedness of one mapping level. -/
def wfDict : List (String × CVal) → Bool
  | [] => true
  | (k, v) :: rest =>
    !(lookupKey k rest).isSome && wfVal v && wfDict rest
end

/-- Python subscript read `v[k]`: `KeyError` on a missing key,
`TypeError` on a non-mapping. -/
def pyGet (v : CVal) (k : String) : Except String CVal :=
  match v with
  | .dict kvs =>
    match lookupKey k kvs with
    | some x => .ok x
    | none => .error ("KeyError: " ++ k)
  | _ => .error "TypeError: value is not subscriptable"

/-- Python subscript write on one mapping level: an existing key keeps
its position, a new key is appended. -/
def setKey (kvs : List (String × CVal)) (k : String) (x : CVal) :
    List (String × CVal) :=
  if (lookupKey k kvs).isSome then
    kvs.map (fun kv => if kv.1 = k then (k, x) else kv)
  else kvs ++ [(k, x)]

/-- Python subscript write `v[k] = x`: `TypeError` on a non-mapping. -/
def pySet (v : CVal) (k : String) (x : CVal) : Except String CVal :=
  match v with
  | .dict kvs => .ok (.dict (setKey kvs k x))
  | _ => .error "TypeError: value does not support item assignment"

/-- `ray.tune.utils.merge_dicts` at the call sites (lines 88, 108): both
arguments are mappings, anything else raises in the library. -/
def merge_dicts (a b : CVal) : Except String CVal :=
  match a, b with
  | .dict _, .dict _ => .ok (mergeVal a b)
  | _, _ => .error "TypeError: merge_dicts expects mappings"

/-- `np.clip(x, lo, hi)` on integers. -/
def np_clip (x lo hi : Int) : Int := min hi (max lo x)

/-- Lines 87-88: deep-merge the `--overrides` mapping over the parsed
parameters when one was given. -/
def applyOverrides (params : CVal) (overrides : Option CVal) :
    Except String CVal :=
  match overrides with
  | some o => merge_dicts params o
  | none => .ok params

/-- Lines 97-105: the default keyword-argument bundle.  `local_dir` and
`loggers` hold values the pipeline never inspects. -/
def defaultKwargs (max_num_workers gpu_avail : Int) : CVal :=
  .dict [
    ("config", .dict [
      ("log_level", .vstr "INFO"),
      ("num_workers", .vint max_num_workers),
      ("num_gpus", .vint gpu_avail)]),
    ("local_dir", .vext 0),
    ("loggers", .vext 1)]

/-- Python `str.split(',')` on a character list: separators are not
merged and an empty string yields `[""]`. -/
def splitCommaAux : List Char → List Char → List String
  | [], acc => [String.mk acc.reverse]
  | c :: rest, acc =>
    if c = ',' then String.mk acc.reverse :: splitCommaAux rest []
    else splitCommaAux rest (c :: acc)

/-- Python `str.split(',')` (line 107). -/
def splitComma (s : String) : List String :=
  splitCommaAux s.data []

/-- Lines 107-108: split `params['rllib']['tune_kwargs_blocks']` on `,`
and deep-merge each named block of `params['rllib']` over the defaults in
order. -/
def mergedTuneKwargs (numCpus numGpus : Int) (params : CVal) :
    Except String CVal :=
  match pyGet params "rllib" with
  | .error e => .error e
  | .ok rllib =>
    match pyGet rllib "tune_kwargs_blocks" with
    | .error e => .error e
    | .ok (.vstr tkbStr) =>
      (splitComma tkbStr).foldlM
        (fun kw blk =>
          match pyGet rllib blk with
          | .error e => .error e
          | .ok blkVal => merge_dicts kw blkVal)
        (defaultKwargs (numCpus - 1) (np_clip numGpus 0 1))
    | .ok _ => .error "TypeError: tune_kwargs_blocks is not a string"

/-- Lines 110-113: when the merged worker count exceeds
`max_num_workers` emit a warning (the returned flag) and clamp it.  The
merged count must be an integer for python's `>` comparison. -/
def clampWorkers (max_num_workers : Int) (kwargs : CVal) :
    Except String (CVal × Bool) :=
  match pyGet kwargs "config" with
  | .error e => .error e
  | .ok cfg =>
    match pyGet cfg "num_workers" with
    | .error e => .error e
    | .ok (.vint nwInt) =>
      if nwInt > max_num_workers then
        match pySet cfg "num_workers" (.vint max_num_workers) with
        | .error e => .error e
        | .ok cfg2 =>
          match pySet kwargs "config" cfg2 with
          | .error e => .error e
          | .ok kw => .ok (kw, true)
      else .ok (kwargs, false)
    | .ok _ => .error "TypeError: num_workers is not an integer"

/-- Line 115: `kwargs['config']['callbacks'] =
InfoToCustomMetricsCallback`, after every merge. -/
def setCallback (kwargs : CVal) : Except String CVal :=
  match pyGet kwargs "config" with
  | .error e => .error e
  | .ok cfg =>
    match pySet cfg "callbacks" CVal.vcallback with
    | .error e => .error e
    | .ok cfg2 => pySet kwargs "config" cfg2

/-- Lines 117-119: optional `stop` criterion.  `int(float(x))` is the
identity on the integer totals modelled here (string-to-float parsing is
out of scope). -/
def setStop (rllib kwargs : CVal) : Except String CVal :=
  match rllib with
  | .dict kvs =>
    match lookupKey "timesteps_total" kvs with
    | some (.vint n) =>
      pySet kwargs "stop" (.dict [("timesteps_total", .vint n)])
    | some _ => .error "TypeError: timesteps_total is not a number"
    | none => .ok kwargs
  | _ => .error "TypeError: argument of type is not iterable"

/-- The observable result of `make_basic_rllib_config`: the merged
parameters, the keyword-argument bundle, and whether the worker-count
warning fired. -/
structure ConfigResult where
  params : CVal
  kwargs : CVal
  warned : Bool

/-- Embedding of `make_basic_rllib_config` (lines 73-121), taking the
cluster CPU/GPU counts and the parsed YAML parameters as inputs (the ray
cluster query, YAML loading, log-directory and metadata side effects of
lines 80-94 are external).  The emitted warning is returned as the
`warned` flag. -/
def make_basic_rllib_config (numCpus numGpus : Int) (params0 : CVal)
    (overrides : Option CVal) : Except String ConfigResult :=
  match applyOverrides params0 overrides with
  | .error e => .error e
  | .ok params =>
    match mergedTuneKwargs numCpus numGpus params with
    | .error e => .error e
    | .ok kwargs =>
      match clampWorkers (numCpus - 1) kwargs with
      | .error e => .error e
      | .ok kwWarn =>
        match setCallback kwWarn.1 with
        | .error e => .error e
        | .ok kwargs2 =>
          match pyGet params "rllib" with
          | .error e => .error e
          | .ok rllib =>
            match setStop rllib kwargs2 with
            | .error e => .error e
            | .ok kwargs3 =>
              .ok { params := params, kwargs := kwargs3, warned := kwWarn.2 }

/-- A concrete parsed-parameter mapping: one tune block requesting 2
workers. -/
def cfgExample : CVal :=
  .dict [("rllib", .dict [
    ("tune_kwargs_blocks", .vstr "blk"),
    ("blk", .dict [("config", .dict [("num_workers", .vint 2)])])])]

/-- A concrete parsed-parameter mapping: one tune block requesting 99
workers (over-subscribed). -/
def cfgExampleHigh : CVal :=
  .dict [("rllib", .dict [
    ("tune_kwargs_blocks", .vstr "blk"),
    ("blk", .dict [("config", .dict [("num_workers", .vint 99)])])])]

/-! ## rllib_utils.RllibLogMetaData (lines 20-62)

The logger state is its log directory and the `saved_continue_script`
flag; the manifest directory contents (`Path(self.logdir).parent` glob of
`*.json`, already JSON-decoded) are an input of each callback, and the
`continue.py` write is the returned action. -/

/-- One entry of a run manifest's `checkpoints` list (only its `logdir`
field is read). -/
structure Checkpoint where
  logdir : String
deriving DecidableEq, Repr

/-- A decoded JSON run manifest (only its `checkpoints` list is read). -/
structure Manifest where
  checkpoints : List Checkpoint
deriving DecidableEq, Repr

/-- Logger attribute state after `_init` (lines 22-25): provenance was
written externally and the flag starts `False`. -/
structure LoggerState where
  logdir : String
  saved_continue_script : Bool
deriving DecidableEq, Repr

/-- `RllibLogMetaData._init` (lines 22-25). -/
def initLogger (logdir : String) : LoggerState :=
  { logdir := logdir, saved_continue_script := false }

/-- Lines 40-45: a manifest is selected when its `checkpoints` list has
exactly one entry and that entry's `logdir` equals the run's log
directory. -/
def checkpointMatches (logdir : String) (m : Manifest) : Bool :=
  match m.checkpoints with
  | [c] => c.logdir == logdir
  | _ => false

/-- Lines 36-45: linear scan of the decoded manifest files, stopping at
the first match (`break`). -/
def findManifest (logdir : String) (files : List (String × Manifest)) :
    Option String :=
  (files.find? (fun fm => checkpointMatches logdir fm.2)).map (fun fm => fm.1)

/-- Embedding of `RllibLogMetaData.on_result` (lines 27-60): a no-op when
the flag is already set; otherwise set the flag, scan the manifest
directory, and write `continue.py` exactly when a manifest matched (the
returned action carries the matched manifest filename that the script
touches). -/
def on_result (st : LoggerState) (files : List (String × Manifest)) :
    LoggerState × Option String :=
  if st.saved_continue_script then (st, none)
  else
    let st2 := { st with saved_continue_script := true }
    match findManifest st.logdir files with
    | some fname => (st2, some fname)
    | none => (st2, none)

/-- A whole run's result callbacks: fold `on_result` over the directory
contents seen at each callback, counting continue-script writes. -/
def runResults (st : LoggerState)
    (fss : List (List (String × Manifest))) : LoggerState × Nat :=
  fss.foldl
    (fun acc fs =>
      let step := on_result acc.1 fs
      (step.1, acc.2 + (if step.2.isSome then 1 else 0)))
    (st, 0)

/-- A manifest file as seen by the scan when JSON decoding can fail:
`bad` files make `json.load` (line 39) raise. -/
inductive FileEntry where
  | good : String → Manifest → FileEntry
  | bad : String → FileEntry
deriving DecidableEq, Repr

/-- The scan loop of lines 36-45 with failing JSON decodes: a `bad` file
raises out of the loop, otherwise the first matching manifest is
selected. -/
def scanE (logdir : String) : List FileEntry → Except String (Option String)
  | [] => .ok none
  | .bad fname :: _ => .error ("JSONDecodeError: " ++ fname)
  | .good fname m :: rest =>
    if checkpointMatches logdir m then .ok (some fname)
    else scanE logdir rest

/-- `on_result` with fallible scanning: the flag assignment of line 31
executes before the scan, so the returned state carries `true` even when
the scan raises (`Except.error`) out of the callback. -/
def on_resultE (st : LoggerState) (files : List FileEntry) :
    LoggerState × Except String (Option String) :=
  if st.saved_continue_script then (st, .ok none)
  else
    let st2 := { st with saved_continue_script := true }
    match scanE st.logdir files with
    | .error e => (st2, .error e)
    | .ok r => (st2, .ok r)

/-! ## Theorems -/

/-- Helper: elementwise broadcasting of a conforming operand against a
vector yields a vector of the same length with the pointwise values. -/
theorem bop_vec (f : Int → Int → Int) (as : List Int) (b : NpArr)
    (hb : conformsTo as.length b) :
    ∃ cs, bop f (.vec as) b = some (.vec cs) ∧ cs.length = as.length ∧
      ∀ j, j < as.length → cs.getD j 0 = f (as.getD j 0) (elemAt b j) := by
  cases b with
  | scalar c =>
    refine ⟨as.map (fun x => f x c), rfl, by simp, ?_⟩
    intro j hj
    rw [List.getD_eq_getElem _ 0 (by simpa), List.getD_eq_getElem _ 0 hj,
      List.getElem_map]
    rfl
  | vec bs =>
    have hlen : bs.length = as.length := hb
    refine ⟨List.zipWith f as bs, by simp [bop, hlen], by simp [hlen], ?_⟩
    intro j hj
    have hjb : j < bs.length := by omega
    have hjz : j < (List.zipWith f as bs).length := by simp [hlen]; omega
    rw [List.getD_eq_getElem _ 0 hjz, List.getD_eq_getElem _ 0 hj,
      List.getElem_zipWith]
    have he : elemAt (.vec bs) j = bs[j] := List.getD_eq_getElem bs 0 hjb
    rw [he]

/-- Helper: elementwise unary operations preserve conformance. -/
theorem conformsTo_npMap (f : Int → Int) (a : NpArr) (n : Nat)
    (ha : conformsTo n a) : conformsTo n (npMap f a) := by
  cases a with
  | scalar x => trivial
  | vec xs => simpa [npMap, conformsTo] using ha

/-- Helper: elementwise unary operations act pointwise on broadcast
elements. -/
theorem elemAt_npMap (f : Int → Int) (a : NpArr) (n j : Nat) (hj : j < n)
    (ha : conformsTo n a) : elemAt (npMap f a) j = f (elemAt a j) := by
  cases a with
  | scalar x => rfl
  | vec xs =>
    have hx : xs.length = n := ha
    have hjx : j < xs.length := by omega
    simp [npMap, elemAt, List.getD_eq_getElem xs 0 hjx,
      List.getD_eq_getElem (xs.map f) 0 (by simpa), List.getElem_map,
      List.getElem?_eq_getElem hjx]

/-- C1: for every valid kernel/stride/padding/input combination,
`out_shape` computes `floor((input + 2*padding - kernel) / stride) + 1`
elementwise: a scalar input (with scalar parameters) yields exactly the
scalar closed form, and a vector input with conforming parameters yields
a vector of the same length whose entries are the closed form of the
broadcast elements. -/
theorem out_shape_conv_arithmetic :
    (∀ i k s p : Int, 0 < s →
      out_shape (.scalar i) (.scalar k) (.scalar s) (.scalar p)
        = some (.scalar (convFormula i k s p))) ∧
    (∀ (is : List Int) (k s p : NpArr),
      conformsTo is.length k → conformsTo is.length s →
      conformsTo is.length p → allPos s →
      ∃ os, out_shape (.vec is) k s p = some (.vec os) ∧
        os.length = is.length ∧
        ∀ j, j < is.length →
          os.getD j 0
            = convFormula (is.getD j 0) (elemAt k j) (elemAt s j) (elemAt p j)) := by
  constructor
  · intro i k s p _
    rfl
  · intro is k s p hk hs hp _
    obtain ⟨c1, h1, l1, p1⟩ :=
      bop_vec (fun a b => a + b) is (npMap (fun x => 2 * x) p)
        (conformsTo_npMap (fun x => 2 * x) p is.length hp)
    obtain ⟨c2, h2, l2, p2⟩ :=
      bop_vec (fun a b => a - b) c1 k (by rw [l1]; exact hk)
    obtain ⟨c3, h3, l3, p3⟩ :=
      bop_vec Int.fdiv c2 s (by rw [l2, l1]; exact hs)
    refine ⟨c3.map (fun x => x + 1), ?_, by simp [l3, l2, l1], ?_⟩
    · have hout : out_shape (.vec is) k s p
          = Option.bind (bop (fun a b => a + b) (.vec is) (npMap (fun x => 2 * x) p))
            (fun t1 => Option.bind (bop (fun a b => a - b) t1 k)
              (fun t2 => Option.bind (bop Int.fdiv t2 s)
                (fun t3 => some (npMap (fun x => x + 1) t3)))) := rfl
      rw [hout, h1, Option.some_bind, h2, Option.some_bind, h3, Option.some_bind]
      simp [npMap]
    · intro j hj
      have hj3 : j < c3.length := by rw [l3, l2, l1]; exact hj
      rw [List.getD_eq_getElem _ 0 (by simpa), List.getElem_map,
        ← List.getD_eq_getElem c3 0 hj3,
        p3 j (by rw [l2, l1]; exact hj),
        p2 j (by rw [l1]; exact hj), p1 j hj,
        elemAt_npMap (fun x => 2 * x) p is.length j hj hp]
      rfl

/-- C1 witness: the scalar case at input 84, kernel 8, stride 4, padding
0 (the first DQN stage) and the vector case at input [84, 84]. -/
theorem out_shape_conv_arithmetic_witness :
    out_shape (.scalar 84) (.scalar 8) (.scalar 4) (.scalar 0)
      = some (.scalar (convFormula 84 8 4 0)) ∧
    ∃ os, out_shape (.vec [84, 84]) (.scalar 8) (.scalar 4) (.scalar 0)
        = some (.vec os) ∧
      os.length = [84, 84].length ∧
      ∀ j, j < [84, 84].length →
        os.getD j 0
          = convFormula ([84, 84].getD j 0) (elemAt (.scalar 8) j)
              (elemAt (.scalar 4) j) (elemAt (.scalar 0) j) :=
  ⟨out_shape_conv_arithmetic.1 84 8 4 0 (by decide),
   out_shape_conv_arithmetic.2 [84, 84] (.scalar 8) (.scalar 4) (.scalar 0)
     trivial trivial trivial (by show (0:Int) < 4; decide)⟩

/-- Helper: `on_result` on an already-flagged state is the identity with
no write. -/
theorem on_result_of_saved (st : LoggerState) (files : List (String × Manifest))
    (h : st.saved_continue_script = true) : on_result st files = (st, none) := by
  simp [on_result, h]

/-- Helper: after any `on_result` call the flag is set. -/
theorem on_result_flag (st : LoggerState) (files : List (String × Manifest)) :
    ((on_result st files).1).saved_continue_script = true := by
  by_cases h : st.saved_continue_script
  · simp [on_result, h]
  · simp only [on_result, h, if_false]
    cases findManifest st.logdir files <;> simp

/-- Helper: the result-callback fold does nothing from a flagged state. -/
theorem runResults_go_of_saved (fss : List (List (String × Manifest))) :
    ∀ (st : LoggerState) (c : Nat), st.saved_continue_script = true →
      fss.foldl
        (fun acc fs =>
          let step := on_result acc.1 fs
          (step.1, acc.2 + (if step.2.isSome then 1 else 0)))
        (st, c) = (st, c) := by
  induction fss with
  | nil => intro st c _; rfl
  | cons fs rest ih =>
    intro st c h
    simp only [List.foldl_cons, on_result_of_saved st fs h]
    exact ih st c h

/-- C6: on an initialized metadata logger the continue script is written
at most once per run: once `saved_continue_script` is true every later
`on_result` call returns immediately with no filesystem write, and any
sequence of result callbacks starting from `_init` performs at most one
write. -/
theorem continue_script_at_most_once :
    (∀ (st : LoggerState) (files : List (String × Manifest)),
      st.saved_continue_script = true → on_result st files = (st, none)) ∧
    (∀ (logdir : String) (fss : List (List (String × Manifest))),
      (runResults (initLogger logdir) fss).2 ≤ 1) := by
  constructor
  · exact on_result_of_saved
  · intro logdir fss
    cases fss with
    | nil => simp [runResults]
    | cons fs rest =>
      have hflag := on_result_flag (initLogger logdir) fs
      simp only [runResults, List.foldl_cons]
      rw [runResults_go_of_saved rest _ _ hflag]
      split <;> omega

/-- C6 witness: a flagged logger ignores a directory holding a matching
manifest, and a two-callback run writes at most once. -/
theorem continue_script_at_most_once_witness :
    on_result { logdir := "d", saved_continue_script := true }
        [("m.json", { checkpoints := [{ logdir := "d" }] })]
      = ({ logdir := "d", saved_continue_script := true }, none) ∧
    (runResults (initLogger "d")
        [[("m.json", { checkpoints := [{ logdir := "d" }] })],
         [("m.json", { checkpoints := [{ logdir := "d" }] })]]).2 ≤ 1 :=
  ⟨continue_script_at_most_once.1 _ _ rfl,
   continue_script_at_most_once.2 "d" _⟩

/-- Helper: when no file passes the selection predicate of lines 40-43,
the scan selects nothing. -/
theorem findManifest_eq_none (logdir : String)
    (files : List (String × Manifest))
    (h : ∀ fm ∈ files, checkpointMatches logdir fm.2 = false) :
    findManifest logdir files = none := by
  have hfind : List.find? (fun fm => checkpointMatches logdir fm.2) files = none :=
    List.find?_eq_none.mpr (fun fm hm => by simp [h fm hm])
  simp [findManifest, hfind]

/-- Helper: a manifest whose checkpoint list does not have exactly one
entry never matches. -/
theorem checkpointMatches_of_length_ne_one (logdir : String) (m : Manifest)
    (h : m.checkpoints.length ≠ 1) : checkpointMatches logdir m = false := by
  unfold checkpointMatches
  match m.checkpoints, h with
  | [], _ => rfl
  | [c], h => exact absurd rfl h
  | c :: d :: t, _ => rfl

/-- C7: when the manifest directory holds no JSON manifest with exactly
one checkpoint whose `logdir` equals this run's log directory, the first
result callback sets the flag and writes nothing (a silent no-op); in
particular manifests whose checkpoint list has length other than one are
never selected even when their checkpoints' logdirs match. -/
theorem no_matching_manifest_no_write :
    (∀ (logdir : String) (files : List (String × Manifest)),
      (∀ fm ∈ files, checkpointMatches logdir fm.2 = false) →
      on_result (initLogger logdir) files
        = ({ logdir := logdir, saved_continue_script := true }, none)) ∧
    (∀ (logdir : String) (files : List (String × Manifest)),
      (∀ fm ∈ files, fm.2.checkpoints.length ≠ 1) →
      on_result (initLogger logdir) files
        = ({ logdir := logdir, saved_continue_script := true }, none)) := by
  have base : ∀ (logdir : String) (files : List (String × Manifest)),
      (∀ fm ∈ files, checkpointMatches logdir fm.2 = false) →
      on_result (initLogger logdir) files
        = ({ logdir := logdir, saved_continue_script := true }, none) := by
    intro logdir files h
    simp [on_result, initLogger, findManifest_eq_none logdir files h]
  refine ⟨base, fun logdir files h => base logdir files ?_⟩
  intro fm hm
  exact checkpointMatches_of_length_ne_one logdir fm.2 (h fm hm)

/-- C7 witness: a directory whose only manifest lists two checkpoints,
both with the run's logdir, produces no write. -/
theorem no_matching_manifest_no_write_witness :
    on_result (initLogger "d")
        [("m.json", { checkpoints := [{ logdir := "d" }, { logdir := "d" }] })]
      = ({ logdir := "d", saved_continue_script := true }, none) :=
  no_matching_manifest_no_write.2 "d" _ (by decide)

/-- C10: in the fallible-scan model the flag assignment precedes the
directory scan, so the flag is true after any callback on an unflagged
state even when the scan raises, an already-flagged state is returned
unchanged with no write, and every callback after a first one (failed or
not) is a no-op. -/
theorem flag_set_before_scan :
    (∀ (st : LoggerState) (files : List FileEntry),
      ((on_resultE st files).1).saved_continue_script = true) ∧
    (∀ (st : LoggerState) (files : List FileEntry),
      st.saved_continue_script = true → on_resultE st files = (st, .ok none)) ∧
    (∀ (st : LoggerState) (files files2 : List FileEntry),
      on_resultE ((on_resultE st files).1) files2
        = ((on_resultE st files).1, .ok none)) := by
  have flag : ∀ (st : LoggerState) (files : List FileEntry),
      ((on_resultE st files).1).saved_continue_script = true := by
    intro st files
    by_cases h : st.saved_continue_script
    · simp [on_resultE, h]
    · simp only [on_resultE, h, if_false]
      cases scanE st.logdir files <;> simp
  have saved : ∀ (st : LoggerState) (files : List FileEntry),
      st.saved_continue_script = true → on_resultE st files = (st, .ok none) := by
    intro st files h
    simp [on_resultE, h]
  exact ⟨flag, saved, fun st files files2 => saved _ files2 (flag st files)⟩

/-- C10 witness: a callback that hits a bad JSON file still flags the
logger, and the next callback is a no-op. -/
theorem flag_set_before_scan_witness :
    ((on_resultE (initLogger "d") [.bad "broken.json"]).1).saved_continue_script
      = true ∧
    on_resultE { logdir := "d", saved_continue_script := true } [.bad "broken.json"]
      = ({ logdir := "d", saved_continue_script := true }, .ok none) :=
  ⟨flag_set_before_scan.1 _ _, flag_set_before_scan.2.1 _ _ rfl⟩

/-- Helper: a key keeps looking up its freshly written value. -/
theorem lookupKey_map_replace (kvs : List (String × CVal)) (k : String)
    (x : CVal) (h : (lookupKey k kvs).isSome) :
    lookupKey k (kvs.map (fun kv => if kv.1 = k then (k, x) else kv))
      = some x := by
  induction kvs with
  | nil => simp [lookupKey] at h
  | cons kv rest ih =>
    by_cases hk : kv.1 = k
    · simp [lookupKey, hk]
    · simp only [lookupKey, hk, if_false] at h
      simp [lookupKey, hk, ih h]

/-- Helper: appending an entry for an absent key makes it found. -/
theorem lookupKey_append_single (kvs : List (String × CVal)) (k : String)
    (x : CVal) (h : lookupKey k kvs = none) :
    lookupKey k (kvs ++ [(k, x)]) = some x := by
  induction kvs with
  | nil => simp [lookupKey]
  | cons kv rest ih =>
    by_cases hk : kv.1 = k
    · simp [lookupKey, hk] at h
    · simp only [lookupKey, hk, if_false] at h
      simp [lookupKey, hk, ih h]

/-- Helper: after `setKey` the written key holds the written value. -/
theorem lookupKey_setKey_self (kvs : List (String × CVal)) (k : String)
    (x : CVal) : lookupKey k (setKey kvs k x) = some x := by
  unfold setKey
  by_cases h : (lookupKey k kvs).isSome
  · simp only [h, if_true]
    exact lookupKey_map_replace kvs k x h
  · simp only [h, if_false]
    exact lookupKey_append_single kvs k x (by
      cases hl : lookupKey k kvs
      · rfl
      · rw [hl] at h; simp at h)

/-- Helper: replacing one key's value does not disturb other keys. -/
theorem lookupKey_map_other (kvs : List (String × CVal)) (k k' : String)
    (x : CVal) (h : k' ≠ k) :
    lookupKey k' (kvs.map (fun kv => if kv.1 = k then (k, x) else kv))
      = lookupKey k' kvs := by
  have h1 : ¬(k = k') := fun hc => h hc.symm
  induction kvs with
  | nil => rfl
  | cons kv rest ih =>
    by_cases hk : kv.1 = k
    · have h2 : ¬(kv.1 = k') := by rw [hk]; exact h1
      simpa [lookupKey, hk, h1, h2] using ih
    · by_cases hk' : kv.1 = k'
      · simp [lookupKey, hk, hk', h]
      · simp [lookupKey, hk, hk', ih]

/-- Helper: appending an entry for one key does not disturb other keys. -/
theorem lookupKey_append_other (kvs : List (String × CVal)) (k k' : String)
    (x : CVal) (h : k' ≠ k) :
    lookupKey k' (kvs ++ [(k, x)]) = lookupKey k' kvs := by
  have h1 : ¬(k = k') := fun hc => h hc.symm
  induction kvs with
  | nil => simp [lookupKey, h1]
  | cons kv rest ih =>
    by_cases hk' : kv.1 = k'
    · simp [lookupKey, hk']
    · simp [lookupKey, hk', ih]

/-- Helper: `setKey` leaves every other key's binding unchanged. -/
theorem lookupKey_setKey_other (kvs : List (String × CVal)) (k k' : String)
    (x : CVal) (h : k' ≠ k) :
    lookupKey k' (setKey kvs k x) = lookupKey k' kvs := by
  unfold setKey
  by_cases hs : (lookupKey k kvs).isSome
  · simp only [hs, if_true]
    exact lookupKey_map_other kvs k k' x h
  · simp only [hs, if_false]
    exact lookupKey_append_other kvs k k' x h

/-- Helper: a successful subscript read exposes the mapping and the
binding. -/
theorem pyGet_ok (v : CVal) (k : String) (x : CVal) (h : pyGet v k = .ok x) :
    ∃ kvs, v = .dict kvs ∧ lookupKey k kvs = some x := by
  cases v with
  | dict kvs =>
    refine ⟨kvs, rfl, ?_⟩
    cases hl : lookupKey k kvs with
    | none =>
      simp only [pyGet, hl] at h
      exact Except.noConfusion h
    | some y =>
      simp only [pyGet, hl, Except.ok.injEq] at h
      rw [h]
  | vint n => simp [pyGet] at h
  | vstr s => simp [pyGet] at h
  | vcallback => simp [pyGet] at h
  | vext n => simp [pyGet] at h

/-- Helper: a successful block merge requires `params['rllib']` to be a
mapping. -/
theorem mergedTuneKwargs_rllib (numCpus numGpus : Int) (params kwargs : CVal)
    (h : mergedTuneKwargs numCpus numGpus params = .ok kwargs) :
    ∃ rkvs, pyGet params "rllib" = .ok (.dict rkvs) := by
  unfold mergedTuneKwargs at h
  cases hrl : pyGet params "rllib" with
  | error e =>
    simp only [hrl] at h
    exact Except.noConfusion h
  | ok rl =>
    simp only [hrl] at h
    cases htkb : pyGet rl "tune_kwargs_blocks" with
    | error e =>
      simp only [htkb] at h
      exact Except.noConfusion h
    | ok tkb =>
      obtain ⟨rkvs, hrkvs, _⟩ := pyGet_ok rl "tune_kwargs_blocks" tkb htkb
      exact ⟨rkvs, by rw [hrkvs]⟩

/-- Helper: the optional `stop` assignment writes only the top-level
`stop` key, so the `config` entry is untouched. -/
theorem setStop_preserves_config (rl kw kw2 : CVal)
    (h : setStop rl kw = .ok kw2) :
    pyGet kw2 "config" = pyGet kw "config" := by
  unfold setStop at h
  cases rl with
  | dict rkvs =>
    cases hl : lookupKey "timesteps_total" rkvs with
    | none =>
      simp only [hl, Except.ok.injEq] at h
      rw [h]
    | some v =>
      cases v with
      | vint n =>
        simp only [hl] at h
        cases kw with
        | dict kws =>
          simp only [pySet, Except.ok.injEq] at h
          rw [← h]
          simp [pyGet,
            lookupKey_setKey_other kws "stop" "config" _ (by decide)]
        | vint m => simp [pySet] at h
        | vstr s => simp [pySet] at h
        | vcallback => simp [pySet] at h
        | vext m => simp [pySet] at h
      | vstr s => simp only [hl] at h; exact Except.noConfusion h
      | vcallback => simp only [hl] at h; exact Except.noConfusion h
      | vext m => simp only [hl] at h; exact Except.noConfusion h
      | dict d => simp only [hl] at h; exact Except.noConfusion h
  | vint n => exact Except.noConfusion h
  | vstr s => exact Except.noConfusion h
  | vcallback => exact Except.noConfusion h
  | vext n => exact Except.noConfusion h

/-- Helper: after the callback assignment the `config` mapping binds
`callbacks` to the custom-metrics callback class. -/
theorem setCallback_ok (kw kw2 : CVal) (h : setCallback kw = .ok kw2) :
    ∃ cfg2, pyGet kw2 "config" = .ok (.dict cfg2) ∧
      lookupKey "callbacks" cfg2 = some CVal.vcallback := by
  unfold setCallback at h
  cases hc : pyGet kw "config" with
  | error e =>
    simp only [hc] at h
    exact Except.noConfusion h
  | ok cfg =>
    simp only [hc] at h
    obtain ⟨kws, hkws, hlc⟩ := pyGet_ok kw "config" cfg hc
    cases cfg with
    | dict cfgl =>
      subst hkws
      simp only [pySet, Except.ok.injEq] at h
      refine ⟨setKey cfgl "callbacks" CVal.vcallback, ?_,
        lookupKey_setKey_self cfgl "callbacks" CVal.vcallback⟩
      rw [← h]
      simp [pyGet, lookupKey_setKey_self kws "config" _]
    | vint n => simp [pySet] at h
    | vstr s => simp [pySet] at h
    | vcallback => simp [pySet] at h
    | vext n => simp [pySet] at h

/-- Helper: inversion of a successful `make_basic_rllib_config` run into
its stages. -/
theorem make_basic_rllib_config_ok (numCpus numGpus : Int) (params0 : CVal)
    (overrides : Option CVal) (res : ConfigResult)
    (hres : make_basic_rllib_config numCpus numGpus params0 overrides
      = .ok res) :
    ∃ params kwargs kwWarn kwargs2 rllib,
      applyOverrides params0 overrides = .ok params ∧
      mergedTuneKwargs numCpus numGpus params = .ok kwargs ∧
      clampWorkers (numCpus - 1) kwargs = .ok kwWarn ∧
      setCallback kwWarn.1 = .ok kwargs2 ∧
      pyGet params "rllib" = .ok rllib ∧
      setStop rllib kwargs2 = .ok res.kwargs ∧
      res.params = params ∧ res.warned = kwWarn.2 := by
  unfold make_basic_rllib_config at hres
  cases hov : applyOverrides params0 overrides with
  | error e =>
    simp only [hov] at hres
    exact Except.noConfusion hres
  | ok params =>
    simp only [hov] at hres
    cases hkw : mergedTuneKwargs numCpus numGpus params with
    | error e =>
      simp only [hkw] at hres
      exact Except.noConfusion hres
    | ok kwargs =>
      simp only [hkw] at hres
      cases hcl : clampWorkers (numCpus - 1) kwargs with
      | error e =>
        simp only [hcl] at hres
        exact Except.noConfusion hres
      | ok kwWarn =>
        simp only [hcl] at hres
        cases hscb : setCallback kwWarn.1 with
        | error e =>
          simp only [hscb] at hres
          exact Except.noConfusion hres
        | ok kwargs2 =>
          simp only [hscb] at hres
          cases hrl : pyGet params "rllib" with
          | error e =>
            simp only [hrl] at hres
            exact Except.noConfusion hres
          | ok rllib =>
            simp only [hrl] at hres
            cases hss : setStop rllib kwargs2 with
            | error e =>
              simp only [hss] at hres
              exact Except.noConfusion hres
            | ok kwargs3 =>
              simp only [hss, Except.ok.injEq] at hres
              refine ⟨params, kwargs, kwWarn, kwargs2, rllib,
                rfl, hkw, hcl, hscb, hrl, ?_, ?_, ?_⟩
              · rw [← hres]
                exact hss
              · rw [← hres]
              · rw [← hres]

/-- C9: in the keyword-argument bundle returned by
`make_basic_rllib_config`, the `config` entry `callbacks` equals the
custom-metrics callback class regardless of the override mapping and of
every `tune_kwargs_blocks` block, because the callback is assigned after
all deep merges. -/
theorem callbacks_always_custom_metrics (numCpus numGpus : Int)
    (params0 : CVal) (overrides : Option CVal) (res : ConfigResult)
    (hres : make_basic_rllib_config numCpus numGpus params0 overrides
      = .ok res) :
    ∃ cfg, pyGet res.kwargs "config" = .ok (.dict cfg) ∧
      lookupKey "callbacks" cfg = some CVal.vcallback := by
  obtain ⟨params, kwargs, kwWarn, kwargs2, rllib,
    _, _, _, hscb, _, hss, _, _⟩ :=
    make_basic_rllib_config_ok numCpus numGpus params0 overrides res hres
  obtain ⟨cfg2, hc2, hcb⟩ := setCallback_ok kwWarn.1 kwargs2 hscb
  refine ⟨cfg2, ?_, hcb⟩
  rw [setStop_preserves_config rllib kwargs2 res.kwargs hss]
  exact hc2

/-- Helper: a present entry makes its key's lookup succeed. -/
theorem lookupKey_isSome_of_mem (l : List (String × CVal))
    (kv : String × CVal) (hm : kv ∈ l) : (lookupKey kv.1 l).isSome := by
  induction l with
  | nil => simp at hm
  | cons hd tl ih =>
    rcases List.mem_cons.mp hm with h | h
    · subst h
      simp [lookupKey]
    · by_cases hh : hd.1 = kv.1 <;> simp [lookupKey, hh, ih h]

/-- Helper: a successful lookup comes from a present entry. -/
theorem mem_of_lookupKey (l : List (String × CVal)) (k : String) (v : CVal)
    (h : lookupKey k l = some v) : (k, v) ∈ l := by
  induction l with
  | nil => simp [lookupKey] at h
  | cons hd tl ih =>
    obtain ⟨k1, v1⟩ := hd
    by_cases hh : k1 = k
    · simp only [lookupKey, hh, if_true, Option.some.injEq] at h
      subst hh
      subst h
      exact List.mem_cons_self _ _
    · simp only [lookupKey, hh, if_false] at h
      exact List.mem_cons_of_mem _ (ih h)

/-- Helper: in a duplicate-free mapping each entry's key looks up to
exactly that entry's value. -/
theorem lookupKey_of_wf_mem (l : List (String × CVal))
    (hw : wfDict l = true) (kv : String × CVal) (hm : kv ∈ l) :
    lookupKey kv.1 l = some kv.2 := by
  induction l with
  | nil => simp at hm
  | cons hd tl ih =>
    obtain ⟨k1, v1⟩ := hd
    simp only [wfDict, Bool.and_eq_true, Bool.not_eq_true'] at hw
    obtain ⟨⟨hnone, _⟩, htl⟩ := hw
    rcases List.mem_cons.mp hm with h | h
    · subst h
      simp [lookupKey]
    · by_cases hh : k1 = kv.1
      · exfalso
        have := lookupKey_isSome_of_mem tl kv h
        rw [← hh] at this
        rw [hnone] at this
        exact Bool.noConfusion this
      · simp only [lookupKey, hh, if_false]
        exact ih htl h

/-- Helper: every value stored in a well-formed mapping is itself
well-formed. -/
theorem wfDict_val (l : List (String × CVal)) (hw : wfDict l = true)
    (kv : String × CVal) (hm : kv ∈ l) : wfVal kv.2 = true := by
  induction l with
  | nil => simp at hm
  | cons hd tl ih =>
    obtain ⟨k1, v1⟩ := hd
    simp only [wfDict, Bool.and_eq_true, Bool.not_eq_true'] at hw
    obtain ⟨⟨_, hv⟩, htl⟩ := hw
    rcases List.mem_cons.mp hm with h | h
    · subst h
      exact hv
    · exact ih htl h

/-- Helper: `mergeLeft` keeps exactly the base mapping's keys. -/
theorem lookupKey_mergeLeft_isSome (a b : List (String × CVal)) (k : String) :
    (lookupKey k (mergeLeft a b)).isSome = (lookupKey k a).isSome := by
  induction a with
  | nil => rfl
  | cons hd tl ih =>
    obtain ⟨k1, v1⟩ := hd
    cases hlb : lookupKey k1 b with
    | some bv =>
      have hml : mergeLeft ((k1, v1) :: tl) b
          = (k1, mergeVal v1 bv) :: mergeLeft tl b := by
        simp only [mergeLeft, hlb]
      rw [hml]
      by_cases hh : k1 = k
      · simp [lookupKey, hh]
      · simp [lookupKey, hh, ih]
    | none =>
      have hml : mergeLeft ((k1, v1) :: tl) b
          = (k1, v1) :: mergeLeft tl b := by
        simp only [mergeLeft, hlb]
      rw [hml]
      by_cases hh : k1 = k
      · simp [lookupKey, hh]
      · simp [lookupKey, hh, ih]

/-- Helper: a key found on the left is found in the concatenation. -/
theorem lookupKey_append_isSome_left (l1 l2 : List (String × CVal))
    (k : String) (h : (lookupKey k l1).isSome) :
    (lookupKey k (l1 ++ l2)).isSome := by
  induction l1 with
  | nil => simp [lookupKey] at h
  | cons hd tl ih =>
    by_cases hh : hd.1 = k
    · simp [lookupKey, hh]
    · simp only [lookupKey, hh, if_false] at h
      simp [lookupKey, hh, ih h]

/-- Helper: a key absent on the left defers to the right of the
concatenation. -/
theorem lookupKey_append_left_none (l1 l2 : List (String × CVal))
    (k : String) (h : lookupKey k l1 = none) :
    lookupKey k (l1 ++ l2) = lookupKey k l2 := by
  induction l1 with
  | nil => rfl
  | cons hd tl ih =>
    by_cases hh : hd.1 = k
    · simp [lookupKey, hh] at h
    · simp only [lookupKey, hh, if_false] at h
      simp [lookupKey, hh, ih h]

/-- Helper: `mergeLeft` distributes over concatenation of the base. -/
theorem mergeLeft_append (l1 l2 b : List (String × CVal)) :
    mergeLeft (l1 ++ l2) b = mergeLeft l1 b ++ mergeLeft l2 b := by
  induction l1 with
  | nil => rfl
  | cons hd tl ih =>
    obtain ⟨k, v⟩ := hd
    simp [mergeLeft, ih]

/-- Helper: no new keys are contributed when every override key is
already present. -/
theorem newKeys_nil (a b2 : List (String × CVal))
    (h : ∀ kv ∈ b2, (lookupKey kv.1 a).isSome) : newKeys a b2 = [] := by
  induction b2 with
  | nil => rfl
  | cons kv rest ih =>
    simp only [newKeys, h kv (List.mem_cons_self _ _), if_true]
    exact ih (fun kv' h' => h kv' (List.mem_cons_of_mem _ h'))

/-- Helper: new-key entries come from the override. -/
theorem mem_of_newKeys (a b : List (String × CVal)) (kv : String × CVal)
    (hm : kv ∈ newKeys a b) : kv ∈ b := by
  induction b with
  | nil => simp [newKeys] at hm
  | cons hd rest ih =>
    by_cases hh : (lookupKey hd.1 a).isSome
    · simp only [newKeys, hh, if_true] at hm
      exact List.mem_cons_of_mem _ (ih hm)
    · simp only [newKeys, hh, if_false] at hm
      rcases List.mem_cons.mp hm with h | h
      · subst h
        exact List.mem_cons_self _ _
      · exact List.mem_cons_of_mem _ (ih h)

/-- Helper: an override entry with a fresh key survives into the new-key
suffix. -/
theorem mem_newKeys_of_not (a b : List (String × CVal)) (kv : String × CVal)
    (hm : kv ∈ b) (h : (lookupKey kv.1 a).isSome = false) :
    kv ∈ newKeys a b := by
  induction b with
  | nil => simp at hm
  | cons hd rest ih =>
    rcases List.mem_cons.mp hm with hh | hh
    · subst hh
      simp only [newKeys, h, if_false]
      exact List.mem_cons_self _ _
    · by_cases hs : (lookupKey hd.1 a).isSome
      · simp only [newKeys, hs, if_true]
        exact ih hh
      · simp only [newKeys, hs, if_false]
        exact List.mem_cons_of_mem _ (ih hh)

/-- Helper: values stored in a mapping are smaller than the mapping. -/
theorem sizeOf_val_le (b : List (String × CVal)) (kv : String × CVal)
    (hm : kv ∈ b) (n : Nat) (hb : sizeOf (CVal.dict b) ≤ n + 1) :
    sizeOf kv.2 ≤ n := by
  have h1 : sizeOf kv < sizeOf b := List.sizeOf_lt_of_mem hm
  obtain ⟨k, v⟩ := kv
  simp only [Prod.mk.sizeOf_spec] at h1
  simp only [CVal.dict.sizeOf_spec] at hb
  simp only
  omega

/-- Helper: deep-merging a well-formed override twice is the same as
merging it once (strong induction on the override's size). -/
theorem mergeVal_idem_aux : ∀ n : Nat, ∀ y : CVal, sizeOf y ≤ n →
    wfVal y = true → ∀ x : CVal, mergeVal (mergeVal x y) y = mergeVal x y := by
  intro n
  induction n with
  | zero =>
    intro y hy _ _
    exact absurd hy (by cases y <;> simp_arith)
  | succ n ih =>
    intro y hy hwf x
    cases y with
    | vint m =>
      have h1 : ∀ z, mergeVal z (CVal.vint m) = CVal.vint m := fun z => by
        cases z <;> rfl
      rw [h1, h1]
    | vstr s =>
      have h1 : ∀ z, mergeVal z (CVal.vstr s) = CVal.vstr s := fun z => by
        cases z <;> rfl
      rw [h1, h1]
    | vcallback =>
      have h1 : ∀ z, mergeVal z CVal.vcallback = CVal.vcallback := fun z => by
        cases z <;> rfl
      rw [h1, h1]
    | vext m =>
      have h1 : ∀ z, mergeVal z (CVal.vext m) = CVal.vext m := fun z => by
        cases z <;> rfl
      rw [h1, h1]
    | dict b =>
      have hwd : wfDict b = true := hwf
      have hvals : ∀ kv : String × CVal, kv ∈ b → wfVal kv.2 = true :=
        fun kv hm => wfDict_val b hwd kv hm
      have hsz : ∀ kv : String × CVal, kv ∈ b → sizeOf kv.2 ≤ n :=
        fun kv hm => sizeOf_val_le b kv hm n hy
      have G2 : ∀ v : CVal, sizeOf v ≤ n → wfVal v = true →
          mergeVal v v = v := by
        intro v hs hw
        cases v with
        | dict d =>
          have h0 : mergeVal (CVal.vint 0) (CVal.dict d) = CVal.dict d := rfl
          have h2 := ih (CVal.dict d) hs hw (CVal.vint 0)
          rw [h0] at h2
          exact h2
        | vint m => rfl
        | vstr s => rfl
        | vcallback => rfl
        | vext m => rfl
      have ML : ∀ d : List (String × CVal),
          (∀ kv ∈ d, lookupKey kv.1 b = some kv.2 ∧ wfVal kv.2 = true ∧
            sizeOf kv.2 ≤ n) →
          mergeLeft d b = d := by
        intro d
        induction d with
        | nil => intro _; rfl
        | cons kv rest ihd =>
          intro hyp
          obtain ⟨k, v⟩ := kv
          obtain ⟨hl, hw, hs⟩ := hyp (k, v) (List.mem_cons_self _ _)
          have h1 : mergeLeft ((k, v) :: rest) b
              = (k, mergeVal v v) :: mergeLeft rest b := by
            simp only [mergeLeft, hl]
          rw [h1, G2 v hs hw,
            ihd (fun kv' h' => hyp kv' (List.mem_cons_of_mem _ h'))]
      have ML2 : ∀ c : List (String × CVal),
          mergeLeft (mergeLeft c b) b = mergeLeft c b := by
        intro c
        induction c with
        | nil => rfl
        | cons kv rest ihc =>
          obtain ⟨k, v⟩ := kv
          cases hlb : lookupKey k b with
          | some bv =>
            have hmem : (k, bv) ∈ b := mem_of_lookupKey b k bv hlb
            have h1 : mergeLeft ((k, v) :: rest) b
                = (k, mergeVal v bv) :: mergeLeft rest b := by
              simp only [mergeLeft, hlb]
            have h2 : mergeLeft ((k, mergeVal v bv) :: mergeLeft rest b) b
                = (k, mergeVal (mergeVal v bv) bv)
                  :: mergeLeft (mergeLeft rest b) b := by
              simp only [mergeLeft, hlb]
            rw [h1, h2, ih bv (hsz _ hmem) (hvals _ hmem) v, ihc]
          | none =>
            have h1 : mergeLeft ((k, v) :: rest) b
                = (k, v) :: mergeLeft rest b := by
              simp only [mergeLeft, hlb]
            have h2 : mergeLeft ((k, v) :: mergeLeft rest b) b
                = (k, v) :: mergeLeft (mergeLeft rest b) b := by
              simp only [mergeLeft, hlb]
            rw [h1, h2, ihc]
      have SM : mergeVal (CVal.dict b) (CVal.dict b) = CVal.dict b := by
        have e1 : mergeVal (CVal.dict b) (CVal.dict b)
            = CVal.dict (mergeLeft b b ++ newKeys b b) := rfl
        have e2 : newKeys b b = [] :=
          newKeys_nil b b (fun kv hm => lookupKey_isSome_of_mem b kv hm)
        have e3 : mergeLeft b b = b :=
          ML b (fun kv hm =>
            ⟨lookupKey_of_wf_mem b hwd kv hm, hvals kv hm, hsz kv hm⟩)
        rw [e1, e2, e3, List.append_nil]
      cases x with
      | dict a =>
        have e1 : mergeVal (CVal.dict a) (CVal.dict b)
            = CVal.dict (mergeLeft a b ++ newKeys a b) := rfl
        have e2 : mergeVal (CVal.dict (mergeLeft a b ++ newKeys a b))
              (CVal.dict b)
            = CVal.dict (mergeLeft (mergeLeft a b ++ newKeys a b) b
                ++ newKeys (mergeLeft a b ++ newKeys a b) b) := rfl
        rw [e1, e2]
        have e3 : newKeys (mergeLeft a b ++ newKeys a b) b = [] := by
          apply newKeys_nil
          intro kv hm
          by_cases hsa : (lookupKey kv.1 a).isSome
          · apply lookupKey_append_isSome_left
            rw [lookupKey_mergeLeft_isSome]
            exact hsa
          · have h6 : kv ∈ newKeys a b :=
              mem_newKeys_of_not a b kv hm (by
                cases hx : (lookupKey kv.1 a).isSome
                · rfl
                · exact absurd hx hsa)
            have h7 : (lookupKey kv.1 (newKeys a b)).isSome :=
              lookupKey_isSome_of_mem _ kv h6
            have h8 : lookupKey kv.1 (mergeLeft a b) = none := by
              have h9 := lookupKey_mergeLeft_isSome a b kv.1
              cases hx : lookupKey kv.1 (mergeLeft a b) with
              | none => rfl
              | some z =>
                rw [hx] at h9
                exact absurd h9.symm (by simpa using hsa)
            rw [lookupKey_append_left_none _ _ _ h8]
            exact h7
        have e4 : mergeLeft (mergeLeft a b ++ newKeys a b) b
            = mergeLeft a b ++ newKeys a b := by
          rw [mergeLeft_append, ML2 a,
            ML (newKeys a b) (fun kv hm =>
              have hmb : kv ∈ b := mem_of_newKeys a b kv hm
              ⟨lookupKey_of_wf_mem b hwd kv hmb, hvals kv hmb, hsz kv hmb⟩)]
        rw [e3, e4, List.append_nil]
      | vint m =>
        have hx : mergeVal (CVal.vint m) (CVal.dict b) = CVal.dict b := rfl
        rw [hx]
        exact SM
      | vstr s =>
        have hx : mergeVal (CVal.vstr s) (CVal.dict b) = CVal.dict b := rfl
        rw [hx]
        exact SM
      | vcallback =>
        have hx : mergeVal CVal.vcallback (CVal.dict b) = CVal.dict b := rfl
        rw [hx]
        exact SM
      | vext m =>
        have hx : mergeVal (CVal.vext m) (CVal.dict b) = CVal.dict b := rfl
        rw [hx]
        exact SM

/-- C5: deep-merging a well-formed override mapping over a base
configuration twice (last-writer-wins, recursing on mapping-valued
entries) yields the same result as merging it once: the second merge is a
no-op. -/
theorem merge_override_idempotent (a b : List (String × CVal))
    (hb : wfVal (.dict b) = true) :
    mergeVal (mergeVal (.dict a) (.dict b)) (.dict b)
      = mergeVal (.dict a) (.dict b) :=
  mergeVal_idem_aux (sizeOf (CVal.dict b)) (.dict b) (Nat.le_refl _) hb
    (.dict a)

/-- C5 witness: a nested base and override with overlapping and fresh
keys. -/
theorem merge_override_idempotent_witness :
    wfVal (.dict [("c", .dict [("y", .vint 5), ("z", .vint 6)]),
      ("w", .vint 7)]) = true ∧
    mergeVal (mergeVal
        (.dict [("x", .vint 1), ("c", .dict [("y", .vint 2)])])
        (.dict [("c", .dict [("y", .vint 5), ("z", .vint 6)]),
          ("w", .vint 7)]))
      (.dict [("c", .dict [("y", .vint 5), ("z", .vint 6)]),
        ("w", .vint 7)])
      = mergeVal (.dict [("x", .vint 1), ("c", .dict [("y", .vint 2)])])
        (.dict [("c", .dict [("y", .vint 5), ("z", .vint 6)]),
          ("w", .vint 7)]) :=
  ⟨rfl, merge_override_idempotent
    [("x", .vint 1), ("c", .dict [("y", .vint 2)])]
    [("c", .dict [("y", .vint 5), ("z", .vint 6)]), ("w", .vint 7)]
    rfl⟩

/-- C4: when the worker count left by the deep merges is at most
`CPU - 1` the pipeline keeps it unchanged and emits no warning; when it
exceeds that bound the pipeline clamps it to the bound and warns. -/
theorem num_workers_clamp_behavior (numCpus numGpus : Int)
    (params0 : CVal) (overrides : Option CVal) (params kwargs cfg : CVal)
    (w : Int) (res : ConfigResult)
    (hov : applyOverrides params0 overrides = .ok params)
    (hkw : mergedTuneKwargs numCpus numGpus params = .ok kwargs)
    (hcfg : pyGet kwargs "config" = .ok cfg)
    (hnw : pyGet cfg "num_workers" = .ok (.vint w))
    (hres : make_basic_rllib_config numCpus numGpus params0 overrides
      = .ok res) :
    (w ≤ numCpus - 1 →
      (∃ cfg2, pyGet res.kwargs "config" = .ok cfg2 ∧
        pyGet cfg2 "num_workers" = .ok (.vint w)) ∧ res.warned = false) ∧
    (numCpus - 1 < w →
      (∃ cfg2, pyGet res.kwargs "config" = .ok cfg2 ∧
        pyGet cfg2 "num_workers" = .ok (.vint (numCpus - 1))) ∧
      res.warned = true) := by
  obtain ⟨params', kwargs', kwWarn, kwargs2, rllib,
    hov', hkw', hcl, hscb, hrl, hss, hrp, hrw⟩ :=
    make_basic_rllib_config_ok numCpus numGpus params0 overrides res hres
  have hpe : params' = params := by
    injection hov'.symm.trans hov
  subst hpe
  have hke : kwargs' = kwargs := by
    injection hkw'.symm.trans hkw
  rw [hke] at hcl
  obtain ⟨kws, hkws, hlcfg⟩ := pyGet_ok kwargs "config" cfg hcfg
  obtain ⟨cfgl, hcfgl, hlnw⟩ := pyGet_ok cfg "num_workers" _ hnw
  subst hkws
  subst hcfgl
  by_cases hgt : w > numCpus - 1
  · have hclEq : clampWorkers (numCpus - 1) (.dict kws)
        = .ok (.dict (setKey kws "config"
            (.dict (setKey cfgl "num_workers" (.vint (numCpus - 1))))), true) := by
      simp [clampWorkers, pyGet, hlcfg, hlnw, hgt, pySet]
    have hkwWarn : kwWarn
        = (.dict (setKey kws "config"
            (.dict (setKey cfgl "num_workers" (.vint (numCpus - 1))))), true) := by
      injection hcl.symm.trans hclEq
    have hscbEq : setCallback kwWarn.1
        = .ok (.dict (setKey
            (setKey kws "config"
              (.dict (setKey cfgl "num_workers" (.vint (numCpus - 1)))))
            "config"
            (.dict (setKey (setKey cfgl "num_workers" (.vint (numCpus - 1)))
              "callbacks" CVal.vcallback)))) := by
      rw [hkwWarn]
      simp [setCallback, pyGet, pySet, lookupKey_setKey_self]
    have hkw2 : kwargs2
        = .dict (setKey
            (setKey kws "config"
              (.dict (setKey cfgl "num_workers" (.vint (numCpus - 1)))))
            "config"
            (.dict (setKey (setKey cfgl "num_workers" (.vint (numCpus - 1)))
              "callbacks" CVal.vcallback))) := by
      injection hscb.symm.trans hscbEq
    have hcfg2 : pyGet res.kwargs "config"
        = .ok (.dict (setKey (setKey cfgl "num_workers" (.vint (numCpus - 1)))
            "callbacks" CVal.vcallback)) := by
      rw [setStop_preserves_config rllib kwargs2 res.kwargs hss, hkw2]
      simp [pyGet, lookupKey_setKey_self]
    constructor
    · intro hle
      exact absurd hgt (by omega)
    · intro _
      refine ⟨⟨_, hcfg2, ?_⟩, ?_⟩
      · simp only [pyGet,
          lookupKey_setKey_other _ "callbacks" "num_workers" _ (by decide),
          lookupKey_setKey_self]
      · rw [hrw, hkwWarn]
  · have hclEq : clampWorkers (numCpus - 1) (.dict kws)
        = .ok (.dict kws, false) := by
      simp [clampWorkers, pyGet, hlcfg, hlnw, hgt]
    have hkwWarn : kwWarn = (.dict kws, false) := by
      injection hcl.symm.trans hclEq
    have hscbEq : setCallback kwWarn.1
        = .ok (.dict (setKey kws "config"
            (.dict (setKey cfgl "callbacks" CVal.vcallback)))) := by
      rw [hkwWarn]
      simp [setCallback, pyGet, hlcfg, pySet]
    have hkw2 : kwargs2
        = .dict (setKey kws "config"
            (.dict (setKey cfgl "callbacks" CVal.vcallback))) := by
      injection hscb.symm.trans hscbEq
    have hcfg2 : pyGet res.kwargs "config"
        = .ok (.dict (setKey cfgl "callbacks" CVal.vcallback)) := by
      rw [setStop_preserves_config rllib kwargs2 res.kwargs hss, hkw2]
      simp [pyGet, lookupKey_setKey_self]
    constructor
    · intro _
      refine ⟨⟨_, hcfg2, ?_⟩, ?_⟩
      · simp only [pyGet,
          lookupKey_setKey_other _ "callbacks" "num_workers" _ (by decide),
          hlnw]
      · rw [hrw, hkwWarn]
    · intro hlt
      exact absurd hlt (by omega)

/-- C4 witness: on a 4-CPU cluster a merged request of 2 workers is kept
with no warning, and a merged request of 99 workers is clamped to 3 with
a warning. -/
theorem num_workers_clamp_behavior_witness :
    (∃ res : ConfigResult,
      make_basic_rllib_config 4 0 cfgExample none = .ok res ∧
      (∃ cfg2, pyGet res.kwargs "config" = .ok cfg2 ∧
        pyGet cfg2 "num_workers" = .ok (.vint 2)) ∧ res.warned = false) ∧
    (∃ res : ConfigResult,
      make_basic_rllib_config 4 0 cfgExampleHigh none = .ok res ∧
      (∃ cfg2, pyGet res.kwargs "config" = .ok cfg2 ∧
        pyGet cfg2 "num_workers" = .ok (.vint 3)) ∧ res.warned = true) := by
  constructor
  · refine ⟨⟨cfgExample,
      .dict [("config", .dict [("log_level", .vstr "INFO"),
        ("num_workers", .vint 2), ("num_gpus", .vint 0),
        ("callbacks", .vcallback)]),
        ("local_dir", .vext 0), ("loggers", .vext 1)],
      false⟩, by rfl, ?_⟩
    exact (num_workers_clamp_behavior 4 0 cfgExample none cfgExample
      (.dict [("config", .dict [("log_level", .vstr "INFO"),
        ("num_workers", .vint 2), ("num_gpus", .vint 0)]),
        ("local_dir", .vext 0), ("loggers", .vext 1)])
      (.dict [("log_level", .vstr "INFO"), ("num_workers", .vint 2),
        ("num_gpus", .vint 0)])
      2 _ rfl (by rfl) (by rfl) (by rfl) (by rfl)).1 (by decide)
  · refine ⟨⟨cfgExampleHigh,
      .dict [("config", .dict [("log_level", .vstr "INFO"),
        ("num_workers", .vint 3), ("num_gpus", .vint 0),
        ("callbacks", .vcallback)]),
        ("local_dir", .vext 0), ("loggers", .vext 1)],
      true⟩, by rfl, ?_⟩
    exact (num_workers_clamp_behavior 4 0 cfgExampleHigh none cfgExampleHigh
      (.dict [("config", .dict [("log_level", .vstr "INFO"),
        ("num_workers", .vint 99), ("num_gpus", .vint 0)]),
        ("local_dir", .vext 0), ("loggers", .vext 1)])
      (.dict [("log_level", .vstr "INFO"), ("num_workers", .vint 99),
        ("num_gpus", .vint 0)])
      99 _ rfl (by rfl) (by rfl) (by rfl) (by rfl)).2 (by decide)

/-- C9 witness: the returned bundle of a concrete run binds `callbacks`
to the custom-metrics callback class. -/
theorem callbacks_always_custom_metrics_witness :
    ∃ res : ConfigResult,
      make_basic_rllib_config 4 0 cfgExample none = .ok res ∧
      ∃ cfg, pyGet res.kwargs "config" = .ok (.dict cfg) ∧
        lookupKey "callbacks" cfg = some CVal.vcallback := by
  refine ⟨⟨cfgExample,
    .dict [("config", .dict [("log_level", .vstr "INFO"),
      ("num_workers", .vint 2), ("num_gpus", .vint 0),
      ("callbacks", .vcallback)]),
      ("local_dir", .vext 0), ("loggers", .vext 1)],
    false⟩, by rfl, ?_⟩
  exact callbacks_always_custom_metrics 4 0 cfgExample none _ (by rfl)

/-- C2 counterexample: for observation shape `(84, 84, 4)` the DQN
encoder's schedule does not produce the spatial sizes 84, 20, 9, 7
claimed by the specification, and the flattened feature count is not
3136. -/
theorem dqn_shape_claim_counterexample :
    dqnSpatialTrace [84, 84, 4] ≠ [[84, 84], [20, 20], [9, 9], [7, 7]] ∧
    flatCount (dqn_cnn_out_shp [84, 84, 4]) ≠ 3136 := by decide

/-- C2 (amended): for observation shape `(84, 84, 4)` the DQN encoder
(kernels 8, 4, 4; strides 4, 2, 2) produces successive spatial sizes
84 → 20 → 9 → 3, and the flattened feature count before the hidden
projection is 3 * 3 * 64 = 576. -/
theorem dqn_shape_schedule :
    dqnSpatialTrace [84, 84, 4] = [[84, 84], [20, 20], [9, 9], [3, 3]] ∧
    dqn_cnn_out_shp [84, 84, 4] = [3, 3, 64] ∧
    flatCount (dqn_cnn_out_shp [84, 84, 4]) = 576 := by decide

/-- C3: `FCNet.forward` as written feeds the policy stack's features to
the value head (line 141 reads `self.pi_network`), so on a network whose
policy and value stacks differ the cached value estimate disagrees with
the specified value-stack path: the code caches 1 where the
specification's forward pass caches 2. -/
theorem fcnet_value_path_uses_policy_stack :
    (FCNet.forward fcnetExample [[1]]).1._cur_value = some [1] ∧
    (FCNet.forwardSpec fcnetExample [[1]]).1._cur_value = some [2] ∧
    (FCNet.forward fcnetExample [[1]]).1._cur_value
      ≠ (FCNet.forwardSpec fcnetExample [[1]]).1._cur_value ∧
    runSeq fcnetExample.pi_network [1] ≠ runSeq fcnetExample.v_network [1] := by
  refine ⟨by decide, by decide, ?_, by decide⟩
  decide

/-- C8: for each model variant the value cache starts out unset, so
`value_function` fails with the "must call forward() first" precondition
error before any forward call, and after any forward call
`value_function` returns exactly the value estimate that forward call
cached. -/
theorem value_function_caching_protocol :
    (∀ (pi_lins v_lins : List Linear) (pi_head v_head : Linear),
      (mkFCNet pi_lins v_lins pi_head v_head).value_function
        = .error "must call forward() first") ∧
    (∀ (net : FCNet) (obs : List (List Int)),
      ((net.forward obs).1)._cur_value = some (fcValueOf net obs) ∧
      ((net.forward obs).1).value_function = .ok (fcValueOf net obs)) ∧
    (∀ (T : Type) (cnn fc pi v : T → T),
      (TorchDQNModel.mk0 cnn fc pi v).value_function
        = .error "must call forward() first") ∧
    (∀ (T : Type) (ops : TensorOps T) (m : TorchDQNModel T) (obs : T),
      ((TorchDQNModel.forward ops m obs).1)._cur_value
        = some (dqnValueOf ops m obs) ∧
      ((TorchDQNModel.forward ops m obs).1).value_function
        = .ok (dqnValueOf ops m obs)) ∧
    (∀ (T : Type) (convs : List (T → T)) (res_blocks : List (List (T → T)))
        (fc pi v : T → T),
      (TorchImpalaModel.mk0 convs res_blocks fc pi v).value_function
        = .error "must call forward() first") ∧
    (∀ (T : Type) (ops : TensorOps T) (m : TorchImpalaModel T) (obs : T),
      ((TorchImpalaModel.forward ops m obs).1)._cur_value
        = some (impalaValueOf ops m obs) ∧
      ((TorchImpalaModel.forward ops m obs).1).value_function
        = .ok (impalaValueOf ops m obs)) := by
  refine ⟨fun _ _ _ _ => rfl, fun net obs => ⟨rfl, rfl⟩,
    fun _ _ _ _ _ => rfl, fun T ops m obs => ⟨rfl, rfl⟩,
    fun _ _ _ _ _ _ => rfl, fun T ops m obs => ⟨rfl, rfl⟩⟩

end RlGear
